import Mathlib

/-!
Verification of the campaign scheduler/dispatcher of the disparo-whatsapp
repository, as a shallow embedding in Lean.

Conventions of the embedding:
* Instants are integers that count milliseconds on an idealized local
  timeline of the single campaign timezone (the deployed default UTC-3 has
  no daylight-saving shifts, so a day is exactly 86400000 ms and the local
  clock fields of an instant are obtained by flooring division).  This
  models the JavaScript `Date` arithmetic of `date-fns` (`addSeconds`,
  `addDays`, `set`, `addMinutes`) used by `src/lib/campaign-utils.ts`.
* A parsed `"HH:MM"` string is modelled by the structure `HM` holding the
  two numeric fields; `parseInt(s.split(':')[0])` is `HM.hour`.
* `null` / `undefined` fields of the loose JSON config blobs are modelled
  by `Option`; JavaScript truthiness of a numeric field is
  `Option.getD 0 ≠ 0` and of an object or string field is `Option.isSome`.
-/

/-- One day, hour, minute, second in milliseconds. -/
def msPerDay : Int := 86400000

def msPerHour : Int := 3600000

def msPerMinute : Int := 60000

/-- `Date.prototype.getHours` on the idealized local timeline. -/
def getHours (t : Int) : Int := (t.ediv msPerHour).emod 24

/-- `Date.prototype.getMinutes` on the idealized local timeline. -/
def getMinutes (t : Int) : Int := (t.ediv msPerMinute).emod 60

/-- Midnight of the local day containing `t`. -/
def dayStartMs (t : Int) : Int := (t.ediv msPerDay) * msPerDay

/-- `set(t, \x7b hours, minutes, seconds: 0, milliseconds: 0 \x7d)` of date-fns:
keep the local day of `t` and replace the time of day. -/
def setTimeOfDay (t h m : Int) : Int := dayStartMs t + h * msPerHour + m * msPerMinute

/-- A parsed `"HH:MM"` time-of-day string. -/
structure HM where
  hour : Int
  minute : Int
deriving DecidableEq, Repr

/-- The `businessHoursStrategy` enumeration of the config. -/
inductive BizStrategy
  | ignore
  | pause
deriving DecidableEq, Repr

/-- JavaScript truthiness of a possibly-missing numeric field. -/
def truthyNum (o : Option Int) : Bool := o.getD 0 != 0

/-- `ScheduleConfig` of `src/lib/campaign-utils.ts`. -/
structure ScheduleConfig where
  minInterval : Int
  maxInterval : Int
  useBatching : Bool
  batchSize : Option Int
  batchPauseMin : Option Int
  batchPauseMax : Option Int
  businessHoursStrategy : BizStrategy
  businessHoursPauseTime : Option HM
  businessHoursResumeTime : Option HM
  startTime : Int
deriving DecidableEq, Repr

/-- `ScheduledMessage` of `src/lib/campaign-utils.ts`. -/
structure ScheduledMessage where
  contactIndex : Nat
  sendTime : Int
deriving DecidableEq, Repr, Inhabited

/-- The business-hours block in the loop body of `calculateCampaignSchedule`
(`campaign-utils.ts` lines 84-109): with `t` the minute of day of the
cursor, if `t ≥ pauseT` move the cursor one day forward and set its time of
day to the resume time; else if `t < resumeT` set the time of day of the
same day to the resume time; otherwise leave the cursor unchanged. -/
def businessAdjust (pT rT : HM) (cur : Int) : Int :=
  let t := getHours cur * 60 + getMinutes cur
  let pauseT := pT.hour * 60 + pT.minute
  let resumeT := rT.hour * 60 + rT.minute
  if t ≥ pauseT ∨ t < resumeT then
    setTimeOfDay (if t ≥ pauseT then cur + msPerDay else cur) rT.hour rT.minute
  else cur

/-- One iteration of the `for` loop of `calculateCampaignSchedule`
(`campaign-utils.ts` lines 66-115): add the average interval when `i > 0`,
add the average batch pause when batching applies at index `i`, then apply
the business-hours adjustment when the strategy is `pause`.  The hoisted
loop-invariant values (pause/resume times and the two averages, in ms) are
passed in. -/
def scheduleStep (cfg : ScheduleConfig) (pT rT : HM) (avgIntervalMs avgBatchPauseMs : Int)
    (i : Nat) (cur : Int) : Int :=
  let cur := if 0 < i then cur + avgIntervalMs else cur
  let cur :=
    if cfg.useBatching ∧ truthyNum cfg.batchSize ∧ 0 < i ∧
        (i : Int) % cfg.batchSize.getD 0 = 0 then
      cur + avgBatchPauseMs
    else cur
  if cfg.businessHoursStrategy = BizStrategy.pause then businessAdjust pT rT cur else cur

/-- The loop of `calculateCampaignSchedule`, emitting one `ScheduledMessage`
per remaining index. -/
def scheduleFrom (cfg : ScheduleConfig) (pT rT : HM) (avgIntervalMs avgBatchPauseMs : Int) :
    Nat → Int → Nat → List ScheduledMessage
  | _, _, 0 => []
  | i, cur, Nat.succ fuel =>
    let next := scheduleStep cfg pT rT avgIntervalMs avgBatchPauseMs i cur
    { contactIndex := i, sendTime := next } ::
      scheduleFrom cfg pT rT avgIntervalMs avgBatchPauseMs (i + 1) next fuel

/-- `calculateCampaignSchedule` of `src/lib/campaign-utils.ts` (lines 35-118).
The pause/resume times default to 18:00 / 08:00 and are read from the config
only when the strategy is `pause` and both strings are present (truthy); the
average interval `(min+max)/2` seconds is `(min+max)*500` ms, and the average
batch pause is 0 unless `useBatching` and both pause bounds are truthy. -/
def calculateCampaignSchedule (cfg : ScheduleConfig) (totalMessages : Nat) :
    List ScheduledMessage :=
  let pT :=
    if cfg.businessHoursStrategy = BizStrategy.pause ∧ cfg.businessHoursPauseTime.isSome ∧
        cfg.businessHoursResumeTime.isSome then
      cfg.businessHoursPauseTime.getD ⟨18, 0⟩
    else ⟨18, 0⟩
  let rT :=
    if cfg.businessHoursStrategy = BizStrategy.pause ∧ cfg.businessHoursPauseTime.isSome ∧
        cfg.businessHoursResumeTime.isSome then
      cfg.businessHoursResumeTime.getD ⟨8, 0⟩
    else ⟨8, 0⟩
  let avgIntervalMs := (cfg.minInterval + cfg.maxInterval) * 500
  let avgBatchPauseMs :=
    if cfg.useBatching ∧ truthyNum cfg.batchPauseMin ∧ truthyNum cfg.batchPauseMax then
      (cfg.batchPauseMin.getD 0 + cfg.batchPauseMax.getD 0) * 500
    else 0
  scheduleFrom cfg pT rT avgIntervalMs avgBatchPauseMs 0 cfg.startTime totalMessages

/-- `estimateCampaignEndTime` of `src/lib/campaign-utils.ts` (lines 120-130). -/
def estimateCampaignEndTime (cfg : ScheduleConfig) (totalMessages : Nat) : Int :=
  if totalMessages = 0 then cfg.startTime
  else
    match (calculateCampaignSchedule cfg totalMessages).getLast? with
    | none => cfg.startTime
    | some m => m.sendTime

/-- The planned instants the claim about the `ignore` strategy predicts:
`t 0 = startTime`, and `t (i+1) = t i` plus the average interval in ms, plus
the average batch pause exactly when batching is on and `(i+1) mod batchSize`
is `0`. -/
def claimPlannedTime (cfg : ScheduleConfig) : Nat → Int
  | 0 => cfg.startTime
  | Nat.succ i =>
    claimPlannedTime cfg i + (cfg.minInterval + cfg.maxInterval) * 500 +
      (if cfg.useBatching ∧ ((i + 1 : Nat) : Int) % cfg.batchSize.getD 0 = 0 then
        (cfg.batchPauseMin.getD 0 + cfg.batchPauseMax.getD 0) * 500
      else 0)

/-- The nested `batch_config` object of the stored campaign config blob. -/
structure DbBatchConfig where
  enabled : Option Bool
  size : Option Int
  pause_min : Option Int
  pause_max : Option Int
deriving DecidableEq, Repr

/-- The nested `business_hours` object of the stored campaign config blob. -/
structure DbBusinessHours where
  strategy : Option BizStrategy
  pause_at : Option HM
  resume_at : Option HM
deriving DecidableEq, Repr

/-- The stored (snake_case) campaign config blob as the client-side adapter
reads it; every recognized field may be absent. -/
structure DbConfig where
  min_interval : Option Int
  max_interval : Option Int
  batch_config : Option DbBatchConfig
  business_hours : Option DbBusinessHours
deriving DecidableEq, Repr

/-- `mapDbConfigToScheduleConfig` of `src/lib/campaign-utils.ts`
(lines 132-151): normalize a stored config blob, with defaults
`min_interval 30`, `max_interval 60`, batching off, strategy `ignore`,
pause `18:00`, resume `08:00`. -/
def mapDbConfigToScheduleConfig (dbConfig : DbConfig) (startTime : Int) : ScheduleConfig where
  minInterval := dbConfig.min_interval.getD 30
  maxInterval := dbConfig.max_interval.getD 60
  useBatching := (dbConfig.batch_config.bind (fun b => b.enabled)).getD false
  batchSize := dbConfig.batch_config.bind (fun b => b.size)
  batchPauseMin := dbConfig.batch_config.bind (fun b => b.pause_min)
  batchPauseMax := dbConfig.batch_config.bind (fun b => b.pause_max)
  businessHoursStrategy :=
    (dbConfig.business_hours.bind (fun b => b.strategy)).getD BizStrategy.ignore
  businessHoursPauseTime :=
    some ((dbConfig.business_hours.bind (fun b => b.pause_at)).getD ⟨18, 0⟩)
  businessHoursResumeTime :=
    some ((dbConfig.business_hours.bind (fun b => b.resume_at)).getD ⟨8, 0⟩)
  startTime := startTime

/-- An element of the `existingCampaigns` argument of `checkScheduleConflict`. -/
structure ExistingCampaign where
  id : String
  name : String
  scheduled_at : Option Int
  started_at : Option Int
  total_messages : Option Int
  config : DbConfig
deriving DecidableEq, Repr

/-- `ConflictResult` of `src/lib/campaign-utils.ts`. -/
structure ConflictResult where
  hasConflict : Bool
  conflictingCampaignId : Option String
  conflictingCampaignName : Option String
  suggestedTime : Option Int
deriving DecidableEq, Repr

/-- `campaign.started_at || campaign.scheduled_at`: campaigns with neither
instant are skipped by the conflict loop. -/
def effectiveStart (campaign : ExistingCampaign) : Option Int :=
  campaign.started_at.orElse (fun _ => campaign.scheduled_at)

/-- The estimated end of an existing campaign whose effective start is `s`. -/
def existingEndEstimate (campaign : ExistingCampaign) (s : Int) : Int :=
  estimateCampaignEndTime (mapDbConfigToScheduleConfig campaign.config s)
    ((campaign.total_messages.getD 0).toNat)

/-- The `for` loop of `checkScheduleConflict` (`campaign-utils.ts` lines
173-205): return on the first existing campaign whose buffered window
overlaps the candidate window strictly; skip campaigns with no start. -/
def conflictLoop (newStart newEnd : Int) : List ExistingCampaign → ConflictResult
  | [] =>
    { hasConflict := false, conflictingCampaignId := none, conflictingCampaignName := none,
      suggestedTime := none }
  | campaign :: rest =>
    match effectiveStart campaign with
    | none => conflictLoop newStart newEnd rest
    | some s =>
      let campaignConfig := mapDbConfigToScheduleConfig campaign.config s
      let campaignEnd := existingEndEstimate campaign s
      let campaignStart := campaignConfig.startTime
      let existingStartBuffer := campaignStart - 60 * msPerMinute
      let existingEndBuffer := campaignEnd + 60 * msPerMinute
      if newEnd > existingStartBuffer ∧ newStart < existingEndBuffer then
        { hasConflict := true, conflictingCampaignId := some campaign.id,
          conflictingCampaignName := some campaign.name,
          suggestedTime := some (campaignEnd + (60 + 5) * msPerMinute) }
      else conflictLoop newStart newEnd rest

/-- `checkScheduleConflict` of `src/lib/campaign-utils.ts` (lines 153-208). -/
def checkScheduleConflict (newConfig : ScheduleConfig) (totalMessages : Nat)
    (existingCampaigns : List ExistingCampaign) : ConflictResult :=
  conflictLoop newConfig.startTime (estimateCampaignEndTime newConfig totalMessages)
    existingCampaigns

/-- The overlap test of the conflict loop, as a predicate on one existing
campaign: some effective start exists and
`candidate.end > existing.start − 60 min ∧ candidate.start < existing.end + 60 min`
(both strict). -/
def overlapsExisting (newStart newEnd : Int) (campaign : ExistingCampaign) : Bool :=
  match effectiveStart campaign with
  | none => false
  | some s =>
    decide (newEnd > (mapDbConfigToScheduleConfig campaign.config s).startTime -
        60 * msPerMinute ∧
      newStart < existingEndEstimate campaign s + 60 * msPerMinute)

/-- The concrete admission-conflict scenario: an existing campaign occupying
10:00-11:00 of day zero (start 10:00, 61 messages at a fixed 60 s interval). -/
def conflictExistingCampaign : ExistingCampaign where
  id := "camp-1"
  name := "Existing"
  scheduled_at := some 36000000
  started_at := none
  total_messages := some 61
  config := { min_interval := some 60, max_interval := some 60, batch_config := none,
              business_hours := none }

/-- The concrete admission-conflict scenario: a candidate proposing 10:30 of
day zero, 21 messages at a fixed 60 s interval (20 minutes). -/
def conflictCandidateCfg : ScheduleConfig :=
  ⟨60, 60, false, none, none, none, BizStrategy.ignore, none, none, 37800000⟩

/-- Campaign status values of the `campaigns` table. -/
inductive CampaignStatus
  | scheduled
  | pending
  | processing
  | active
  | paused
  | canceled
  | finished
  | failed
deriving DecidableEq, Repr

/-- Message status values of the `campaign_messages` table; `waiting` models
the stored string 'aguardando'. -/
inductive MessageStatus
  | waiting
  | pending
  | sending
  | sent
  | failed
deriving DecidableEq, Repr

/-- A `campaign_messages` row, restricted to the fields the dispatcher and
the retry command touch. -/
structure MessageRow where
  id : String
  campaign_id : String
  status : MessageStatus
  error_message : Option String
  sent_at : Option Int
deriving DecidableEq, Repr

/-- A `campaigns` row, restricted to the fields the dispatcher touches. -/
structure CampaignRow where
  id : String
  status : CampaignStatus
  sent_messages : Int
  execution_time : Int
  started_at : Option Int
  finished_at : Option Int
  created_at : Int
deriving DecidableEq, Repr

/-- The store's `count` of one campaign's messages whose status is in the
given set (`.eq('campaign_id', id).in('status', statuses)`). -/
def countMessages (msgs : List MessageRow) (campaignId : String)
    (statuses : List MessageStatus) : Nat :=
  (msgs.filter fun m => decide (m.campaign_id = campaignId ∧ m.status ∈ statuses)).length

/-- `finalizeCampaign` of the dispatcher
(`process-campaign-queue/index.ts` lines 240-273): set status `finished`,
`finished_at = now`, `execution_time = max 0 ⌊(now − startedAt)/1000⌋` with
`startedAt` the campaign's `started_at` or else `created_at`, and overwrite
`sent_messages` with the actual count of `sent` rows. -/
def finalizeCampaign (campaign : CampaignRow) (msgs : List MessageRow) (now : Int) :
    CampaignRow :=
  let startedAt := campaign.started_at.getD campaign.created_at
  let executionTime := max 0 ((now - startedAt).ediv 1000)
  let realSentCount := countMessages msgs campaign.id [MessageStatus.sent]
  { campaign with
    status := CampaignStatus.finished
    finished_at := some now
    execution_time := executionTime
    sent_messages := (realSentCount : Int) }

/-- The completion check of the dispatcher (`index.ts` lines 276-303):
finalize when the campaign has no message in waiting ('aguardando') or
`pending` and none in `sending`; otherwise leave the campaign row alone
(`none`). -/
def completionCheck (campaign : CampaignRow) (msgs : List MessageRow) (now : Int) :
    Option CampaignRow :=
  if countMessages msgs campaign.id [MessageStatus.waiting, MessageStatus.pending] = 0 then
    if countMessages msgs campaign.id [MessageStatus.sending] = 0 then
      some (finalizeCampaign campaign msgs now)
    else none
  else none

/-- The raw campaign `config` blob as the dispatcher reads it: both the
camelCase and the snake_case spelling of each recognized field may be
present.  The `automaticPause` sub-object is not modelled; no claim below
depends on its parsed value, only on whether the automatic-pause gate
fired. -/
structure ServerDbConfig where
  minInterval : Option Int
  min_interval : Option Int
  maxInterval : Option Int
  max_interval : Option Int
  useBatching : Option Bool
  batchSize : Option Int
  batchPauseMin : Option Int
  batchPauseMax : Option Int
  businessHoursStrategy : Option BizStrategy
  businessHoursPauseTime : Option HM
  businessHoursResumeTime : Option HM
  batch_config : Option DbBatchConfig
  business_hours : Option DbBusinessHours
deriving DecidableEq, Repr

/-- `getSafeNumber` of the dispatcher (`index.ts` lines 29-32): an absent or
non-numeric field falls back to the default; a numeric field parses to
itself. -/
def getSafeNumber (val : Option Int) (defaultVal : Int) : Int := val.getD defaultVal

/-- `CampaignConfig` as produced by the dispatcher's `parseConfig` (all batch
fields populated with defaults). -/
structure CampaignConfig where
  minInterval : Int
  maxInterval : Int
  useBatching : Bool
  batchSize : Int
  batchPauseMin : Int
  batchPauseMax : Int
  businessHoursStrategy : BizStrategy
  businessHoursPauseTime : Option HM
  businessHoursResumeTime : Option HM
deriving DecidableEq, Repr

/-- `parseConfig` of the dispatcher (`index.ts` lines 34-82): camelCase
falls back to snake_case, then to the defaults `30 / 40 / false / 20 / 60 /
120 / ignore`. -/
def parseConfig (config : ServerDbConfig) : CampaignConfig where
  minInterval :=
    getSafeNumber (config.minInterval.orElse fun _ => config.min_interval) 30
  maxInterval :=
    getSafeNumber (config.maxInterval.orElse fun _ => config.max_interval) 40
  useBatching :=
    (config.useBatching.orElse fun _ => config.batch_config.bind fun b => b.enabled).getD false
  batchSize :=
    getSafeNumber (config.batchSize.orElse fun _ => config.batch_config.bind fun b => b.size) 20
  batchPauseMin :=
    getSafeNumber
      (config.batchPauseMin.orElse fun _ => config.batch_config.bind fun b => b.pause_min) 60
  batchPauseMax :=
    getSafeNumber
      (config.batchPauseMax.orElse fun _ => config.batch_config.bind fun b => b.pause_max) 120
  businessHoursStrategy :=
    (config.businessHoursStrategy.orElse fun _ =>
      config.business_hours.bind fun b => b.strategy).getD BizStrategy.ignore
  businessHoursPauseTime :=
    config.businessHoursPauseTime.orElse fun _ => config.business_hours.bind fun b => b.pause_at
  businessHoursResumeTime :=
    config.businessHoursResumeTime.orElse fun _ =>
      config.business_hours.bind fun b => b.resume_at

/-- `(utcHours - 3 + 24) % 24` of the dispatcher: the BRT (UTC-3) hour of
day computed from the UTC hour (0-23). -/
def brtHoursOf (utcHours : Int) : Int := (utcHours - 3 + 24) % 24

/-- `field ? parseInt(field.split(':')[0]) : default` — the hour component
alone of a possibly-absent `HH:MM` string. -/
def hourField (o : Option HM) (d : Int) : Int :=
  match o with
  | some hm => hm.hour
  | none => d

/-- The recurring business-hours gate of the dispatcher (`index.ts` lines
216-231): with strategy `pause`, skip unless
`resumeHour ≤ brtHours < pauseHour` — hour components only, minute
components of the configured times are never read. -/
def businessHoursSkip (config : CampaignConfig) (brtHours : Int) : Bool :=
  if config.businessHoursStrategy = BizStrategy.pause then
    let pauseHour := hourField config.businessHoursPauseTime 18
    let resumeHour := hourField config.businessHoursResumeTime 8
    let isBusinessHours := decide (resumeHour ≤ brtHours ∧ brtHours < pauseHour)
    !isBusinessHours
  else false

/-- The pause-gate sequence of the dispatcher (`index.ts` lines 160-237):
`shouldPause` is set by the automatic one-shot gate (modelled by whether it
fired) and, only when that gate did not fire, by the recurring
business-hours gate.  A gated campaign is reported `paused_temporarily` and
skipped with no persisted status change. -/
def shouldPauseGate (autoPauseFired : Bool) (config : CampaignConfig) (brtHours : Int) :
    Bool :=
  autoPauseFired || (!autoPauseFired && businessHoursSkip config brtHours)

/-- The business-hours window of the claim, at minute-of-day granularity:
`resumeAt ≤ m < pauseAt` with both endpoints read as full `HH:MM` values. -/
def minuteWindowContains (resumeT pauseT : HM) (brtMinuteOfDay : Int) : Bool :=
  decide (resumeT.hour * 60 + resumeT.minute ≤ brtMinuteOfDay ∧
    brtMinuteOfDay < pauseT.hour * 60 + pauseT.minute)

/-- A dispatcher config with strategy `pause`, pause at 18:00 and resume at
08:30 (a resume time with a nonzero minute component). -/
def halfHourResumeCfg : CampaignConfig :=
  ⟨30, 40, false, 20, 60, 120, BizStrategy.pause, some ⟨18, 0⟩, some ⟨8, 30⟩⟩

/-- The outcome of `fetch` + `response.json()` on the send endpoint: either
a parsed response with its HTTP `ok` flag, its `success` flag and its
optional `error` string, or a rejection carrying the runtime error's
(possibly empty, modelled `none`) message. -/
inductive SendResult
  | response (ok : Bool) (success : Bool) (error : Option String)
  | reject (message : Option String)
deriving DecidableEq, Repr

/-- The error message the catch block of the send step records (`index.ts`
lines 456-488): a non-2xx or unsuccessful response throws
`result.error || 'Failed to send'`, a rejection surfaces as
`err.message || 'Unknown error'`; a successful response records no error. -/
def sendErrorMessage : SendResult → Option String
  | SendResult.response ok success error =>
    if ok && success then none else some (error.getD "Failed to send")
  | SendResult.reject message => some (message.getD "Unknown error")

/-- The terminal commit of a send outcome (`index.ts` lines 462-488): on
success the message becomes `sent` with `sent_at` refreshed to the commit
instant and `error_message` cleared; on failure it becomes `failed` with
the surfaced error message, `sent_at` keeping its claim-time value. -/
def commitSend (m : MessageRow) (now : Int) (r : SendResult) : MessageRow :=
  match sendErrorMessage r with
  | none =>
    { m with status := MessageStatus.sent, sent_at := some now, error_message := none }
  | some e => { m with status := MessageStatus.failed, error_message := some e }

/-- The send invocation is `await fetch(...)` with no `AbortSignal` and no
other timeout mechanism (`index.ts` lines 441-456), so the dispatcher waits
for the endpoint's full duration, whatever it is. -/
def sendElapsedMs (endpointDurationMs : Nat) : Nat := endpointDurationMs

/-- What one send-loop iteration observes from its environment: the campaign
status re-read at the top of the iteration, whether the pacing wait would
overrun the invocation budget (making the loop stop for this invocation),
and the send outcome for the message claimed in this iteration. -/
structure IterEnv where
  statusRead : CampaignStatus
  budgetBreak : Bool
  result : SendResult
deriving DecidableEq, Repr

/-- The observable store events of the send loop. -/
inductive LoopEvent
  | claimMsg (id : String)
  | commitSent (id : String)
  | commitFailed (id : String)
deriving DecidableEq, Repr

/-- The commit event for a claimed message, per the send outcome. -/
def commitEvent (id : String) (r : SendResult) : LoopEvent :=
  match sendErrorMessage r with
  | none => LoopEvent.commitSent id
  | some _ => LoopEvent.commitFailed id

/-- The send loop of the dispatcher (`index.ts` lines 309-489) as the trace
of claim/commit events it performs against the store.  Each iteration first
re-reads the campaign status and breaks on `paused`/`canceled`; otherwise it
may break because the pacing wait would overrun the budget; otherwise it
claims the next waiting message and commits the send outcome before
looping.  The finite environment list also bounds the outer `while`; the
queue is the campaign's waiting messages in claim order, as seen by this
single worker. -/
def sendLoop : List IterEnv → List String → List LoopEvent
  | [], _ => []
  | env :: rest, queue =>
    if env.statusRead = CampaignStatus.paused ∨ env.statusRead = CampaignStatus.canceled then
      []
    else if env.budgetBreak then []
    else
      match queue with
      | [] => []
      | id :: queueRest =>
        LoopEvent.claimMsg id :: commitEvent id env.result :: sendLoop rest queueRest

/-- Count of claim events in a trace. -/
def countClaims (events : List LoopEvent) : Nat :=
  (events.filter fun e =>
    match e with
    | LoopEvent.claimMsg _ => true
    | _ => false).length

/-- The row update of `campaignsService.retryMessage`: status back to
waiting ('aguardando'), `error_message` and `sent_at` cleared. -/
def retryMessageRow (m : MessageRow) : MessageRow :=
  { m with status := MessageStatus.waiting, error_message := none, sent_at := none }

/-- `campaignsService.retryMessage(messageId)` (`services/campaigns.ts`
lines 126-137): an `update` of status/error/sent-at filtered by
`.eq('id', messageId)` only — the reset applies to the row with the given
id whatever its current status; there is no status filter. -/
def retryMessage (msgs : List MessageRow) (messageId : String) : List MessageRow :=
  msgs.map fun m => if m.id = messageId then retryMessageRow m else m

/-- A message row that has already been sent. -/
def sentDemoMessage : MessageRow :=
  { id := "m1", campaign_id := "c1", status := MessageStatus.sent, error_message := none,
    sent_at := some 5000 }

/-- A claimed (`sending`) message row awaiting its commit. -/
def claimedDemoMessage : MessageRow :=
  { id := "m9", campaign_id := "c1", status := MessageStatus.sending, error_message := none,
    sent_at := some 500 }

/-- A processing campaign with two of three messages sent. -/
def finalizeDemoCampaign : CampaignRow :=
  { id := "c1", status := CampaignStatus.processing, sent_messages := 2, execution_time := 0,
    started_at := some 0, finished_at := none, created_at := 0 }

/-- Three terminal messages of `finalizeDemoCampaign`: two sent, one
failed. -/
def finalizeDemoMessages : List MessageRow :=
  [{ id := "m1", campaign_id := "c1", status := MessageStatus.sent, error_message := none,
     sent_at := some 1000 },
   { id := "m2", campaign_id := "c1", status := MessageStatus.sent, error_message := none,
     sent_at := some 2000 },
   { id := "m3", campaign_id := "c1", status := MessageStatus.failed,
     error_message := some "err", sent_at := some 3000 }]

/-- An iteration whose status read lets the loop proceed. -/
def proceedingIterEnv : IterEnv :=
  ⟨CampaignStatus.processing, false, SendResult.response true true none⟩

/-- An iteration whose status read observes the pause command. -/
def pausedIterEnv : IterEnv :=
  ⟨CampaignStatus.paused, false, SendResult.response true true none⟩

/-- A config blob with every recognized field absent. -/
def emptyServerDbConfig : ServerDbConfig :=
  ⟨none, none, none, none, none, none, none, none, none, none, none, none, none⟩

/-- A stored client-side config blob with every recognized field absent. -/
def emptyDbConfig : DbConfig := ⟨none, none, none, none⟩

theorem scheduleFrom_length (cfg : ScheduleConfig) (pT rT : HM) (aI aB : Int) :
    ∀ (fuel i : Nat) (cur : Int), (scheduleFrom cfg pT rT aI aB i cur fuel).length = fuel := by
  intro fuel
  induction fuel with
  | zero => intro i cur; rfl
  | succ f ih =>
    intro i cur
    simp [scheduleFrom, ih]

/-- C10: the estimated end of a campaign with zero recipients is its start
instant, and the pacing calculator indeed produces the empty schedule there,
so the admission planner's window for an empty campaign degenerates to the
single point `startTime`. -/
theorem estimateCampaignEndTime_zero (cfg : ScheduleConfig) :
    estimateCampaignEndTime cfg 0 = cfg.startTime ∧ calculateCampaignSchedule cfg 0 = [] :=
  ⟨rfl, rfl⟩

theorem truthyNum_of_one_le (o : Option Int) (h : 1 ≤ o.getD 0) : truthyNum o = true := by
  simp only [truthyNum, bne_iff_ne, ne_eq]
  omega

theorem scheduleStep_zero (cfg : ScheduleConfig) (pT rT : HM) (aI aB : Int) (cur : Int)
    (hstrat : cfg.businessHoursStrategy = BizStrategy.ignore) :
    scheduleStep cfg pT rT aI aB 0 cur = cur := by
  simp [scheduleStep, hstrat]

theorem scheduleStep_ignore_succ (cfg : ScheduleConfig) (pT rT : HM)
    (hstrat : cfg.businessHoursStrategy = BizStrategy.ignore)
    (hwf : cfg.useBatching = true →
      1 ≤ cfg.batchSize.getD 0 ∧ 1 ≤ cfg.batchPauseMin.getD 0 ∧
        cfg.batchPauseMin.getD 0 ≤ cfg.batchPauseMax.getD 0)
    (i : Nat) (cur : Int) :
    scheduleStep cfg pT rT ((cfg.minInterval + cfg.maxInterval) * 500)
      (if cfg.useBatching ∧ truthyNum cfg.batchPauseMin ∧ truthyNum cfg.batchPauseMax then
        (cfg.batchPauseMin.getD 0 + cfg.batchPauseMax.getD 0) * 500
      else 0) (i + 1) cur
    = cur + (cfg.minInterval + cfg.maxInterval) * 500 +
      (if cfg.useBatching ∧ ((i + 1 : Nat) : Int) % cfg.batchSize.getD 0 = 0 then
        (cfg.batchPauseMin.getD 0 + cfg.batchPauseMax.getD 0) * 500
      else 0) := by
  by_cases hub : cfg.useBatching
  · obtain ⟨hb, hpm, hpmM⟩ := hwf hub
    have h1 : truthyNum cfg.batchSize = true := truthyNum_of_one_le _ hb
    have h2 : truthyNum cfg.batchPauseMin = true := truthyNum_of_one_le _ hpm
    have h3 : truthyNum cfg.batchPauseMax = true := truthyNum_of_one_le _ (le_trans hpm hpmM)
    simp [scheduleStep, hstrat, hub, h1, h2, h3]
    split_ifs <;> ring
  · simp [scheduleStep, hstrat, hub]

theorem scheduleFrom_ignore_maps (cfg : ScheduleConfig) (pT rT : HM)
    (hstrat : cfg.businessHoursStrategy = BizStrategy.ignore)
    (hwf : cfg.useBatching = true →
      1 ≤ cfg.batchSize.getD 0 ∧ 1 ≤ cfg.batchPauseMin.getD 0 ∧
        cfg.batchPauseMin.getD 0 ≤ cfg.batchPauseMax.getD 0) :
    ∀ (fuel i : Nat),
      (scheduleFrom cfg pT rT ((cfg.minInterval + cfg.maxInterval) * 500)
          (if cfg.useBatching ∧ truthyNum cfg.batchPauseMin ∧ truthyNum cfg.batchPauseMax then
            (cfg.batchPauseMin.getD 0 + cfg.batchPauseMax.getD 0) * 500
          else 0) (i + 1) (claimPlannedTime cfg i) fuel).map (fun m => m.sendTime)
        = (List.range' (i + 1) fuel).map (claimPlannedTime cfg) := by
  intro fuel
  induction fuel with
  | zero => intro i; simp [scheduleFrom]
  | succ f ih =>
    intro i
    rw [List.range'_succ]
    simp only [scheduleFrom, List.map_cons]
    have hstep :
        scheduleStep cfg pT rT ((cfg.minInterval + cfg.maxInterval) * 500)
          (if cfg.useBatching ∧ truthyNum cfg.batchPauseMin ∧ truthyNum cfg.batchPauseMax then
            (cfg.batchPauseMin.getD 0 + cfg.batchPauseMax.getD 0) * 500
          else 0) (i + 1) (claimPlannedTime cfg i) = claimPlannedTime cfg (i + 1) := by
      rw [scheduleStep_ignore_succ cfg pT rT hstrat hwf i (claimPlannedTime cfg i)]
      rfl
    rw [hstep]
    exact congrArg (claimPlannedTime cfg (i + 1) :: ·) (ih (i + 1))

theorem calculateCampaignSchedule_length (cfg : ScheduleConfig) (n : Nat) :
    (calculateCampaignSchedule cfg n).length = n := by
  simp [calculateCampaignSchedule, scheduleFrom_length]

/-- C1: with `businessHoursStrategy = ignore` and a well-formed batching
config, `calculateCampaignSchedule` returns exactly `n` instants following
the expected recurrence — `t 0 = startTime` and
`t i = t (i-1) + (min+max)/2` seconds (here in ms: `(min+max)*500`), with an
additional `(batchPauseMin+batchPauseMax)/2` seconds exactly when batching is
on, `i > 0`, and `i mod batchSize = 0`.  Consequently with `n = batchSize` no
batch pause occurs at all, and on the concrete config `min=max=1s`,
`batchSize=2`, pauses `10s/10s`, `n=4` the planned instants are
`t0, t0+1s, t0+12s, t0+13s`. -/
theorem calculateCampaignSchedule_ignore_expected (cfg : ScheduleConfig) (n : Nat)
    (hstrat : cfg.businessHoursStrategy = BizStrategy.ignore)
    (hwf : cfg.useBatching = true →
      1 ≤ cfg.batchSize.getD 0 ∧ 1 ≤ cfg.batchPauseMin.getD 0 ∧
        cfg.batchPauseMin.getD 0 ≤ cfg.batchPauseMax.getD 0) :
    (calculateCampaignSchedule cfg n).map (fun m => m.sendTime)
        = (List.range n).map (claimPlannedTime cfg) ∧
    (calculateCampaignSchedule cfg n).length = n ∧
    (0 < n →
      ((calculateCampaignSchedule cfg n).map (fun m => m.sendTime)).head?
        = some cfg.startTime) ∧
    ((n : Int) = cfg.batchSize.getD 0 →
      ∀ i : Nat, i < n →
        claimPlannedTime cfg i
          = cfg.startTime + i * ((cfg.minInterval + cfg.maxInterval) * 500)) ∧
    (∀ t0 : Int,
      (calculateCampaignSchedule
          ⟨1, 1, true, some 2, some 10, some 10, BizStrategy.ignore, none, none, t0⟩ 4).map
        (fun m => m.sendTime) = [t0, t0 + 1000, t0 + 12000, t0 + 13000]) := by
  have hmain :
      (calculateCampaignSchedule cfg n).map (fun m => m.sendTime)
        = (List.range n).map (claimPlannedTime cfg) := by
    cases n with
    | zero => simp [calculateCampaignSchedule, scheduleFrom]
    | succ m =>
      rw [List.range_eq_range', List.range'_succ]
      simp only [calculateCampaignSchedule, scheduleFrom, List.map_cons]
      rw [scheduleStep_zero cfg _ _ _ _ cfg.startTime hstrat]
      have h0 : cfg.startTime = claimPlannedTime cfg 0 := rfl
      rw [h0]
      exact congrArg (List.cons (claimPlannedTime cfg 0))
        (scheduleFrom_ignore_maps cfg _ _ hstrat hwf m 0)
  refine ⟨hmain, calculateCampaignSchedule_length cfg n, ?_, ?_, ?_⟩
  · intro hn
    rw [hmain]
    cases n with
    | zero => exact absurd hn (lt_irrefl 0)
    | succ m => rw [List.range_eq_range', List.range'_succ]; rfl
  · intro hn i
    induction i with
    | zero => intro _; simp [claimPlannedTime]
    | succ j ihj =>
      intro hlt
      have hj : j < n := Nat.lt_of_succ_lt hlt
      have hprev := ihj hj
      have hpause :
          (if cfg.useBatching ∧ ((j + 1 : Nat) : Int) % cfg.batchSize.getD 0 = 0 then
            (cfg.batchPauseMin.getD 0 + cfg.batchPauseMax.getD 0) * 500
          else 0) = 0 := by
        by_cases hub : cfg.useBatching
        · have hmod : ((j + 1 : Nat) : Int) % cfg.batchSize.getD 0 = ((j + 1 : Nat) : Int) := by
            apply Int.emod_eq_of_lt
            · positivity
            · rw [← hn]; exact_mod_cast hlt
          rw [if_neg]
          intro hc
          have := hc.2
          rw [hmod] at this
          omega
        · rw [if_neg]; intro hc; exact hub hc.1
      show claimPlannedTime cfg (j + 1) = _
      rw [claimPlannedTime, hpause, hprev]
      push_cast
      ring
  · intro t0
    have hne : (BizStrategy.ignore = BizStrategy.pause) = False := by simp
    norm_num [calculateCampaignSchedule, scheduleFrom, scheduleStep, hne, truthyNum]
    ring_nf
    norm_num

/-- Witness for `calculateCampaignSchedule_ignore_expected` at a concrete
config and `n = 3`. -/
theorem calculateCampaignSchedule_ignore_expected_witness :
    (calculateCampaignSchedule
        ⟨5, 5, false, none, none, none, BizStrategy.ignore, none, none, 0⟩ 3).map
      (fun m => m.sendTime)
      = (List.range 3).map
          (claimPlannedTime ⟨5, 5, false, none, none, none, BizStrategy.ignore, none, none, 0⟩) :=
  (calculateCampaignSchedule_ignore_expected
    ⟨5, 5, false, none, none, none, BizStrategy.ignore, none, none, 0⟩ 3 rfl
    (by intro h; cases h)).1

/-- C4: with `businessHoursStrategy = pause`, each cursor is adjusted before
being emitted: minute-of-day `≥ pauseAt` moves it to the next day at the
resume time, minute-of-day `< resumeAt` moves it to the resume time of the
same day, and otherwise it is unchanged; concretely, with pause 18:00,
resume 08:00, `min=max=1s`, `n=2` and start 17:59:59 of day zero
(64799000 ms) the planned instants are 17:59:59 and 08:00:00 of the next day
(115200000 ms). -/
theorem businessAdjust_pause_cases :
    (∀ (pT rT : HM) (cur : Int),
      (getHours cur * 60 + getMinutes cur ≥ pT.hour * 60 + pT.minute →
        businessAdjust pT rT cur = setTimeOfDay (cur + msPerDay) rT.hour rT.minute) ∧
      (getHours cur * 60 + getMinutes cur < pT.hour * 60 + pT.minute →
        getHours cur * 60 + getMinutes cur < rT.hour * 60 + rT.minute →
        businessAdjust pT rT cur = setTimeOfDay cur rT.hour rT.minute) ∧
      (getHours cur * 60 + getMinutes cur < pT.hour * 60 + pT.minute →
        ¬ getHours cur * 60 + getMinutes cur < rT.hour * 60 + rT.minute →
        businessAdjust pT rT cur = cur)) ∧
    (calculateCampaignSchedule
        ⟨1, 1, false, none, none, none, BizStrategy.pause, some ⟨18, 0⟩, some ⟨8, 0⟩,
          64799000⟩ 2).map
      (fun m => m.sendTime) = [64799000, 115200000] := by
  constructor
  · intro pT rT cur
    refine ⟨fun h1 => ?_, fun h1 h2 => ?_, fun h1 h2 => ?_⟩
    · show (if _ then _ else _) = _
      rw [if_pos (Or.inl h1), if_pos h1]
    · show (if _ then _ else _) = _
      rw [if_pos (Or.inr h2), if_neg (not_le.mpr h1)]
    · show (if _ then _ else _) = _
      rw [if_neg]
      intro hc
      exact hc.elim (not_le.mpr h1) h2
  · decide

/-- Witness for `businessAdjust_pause_cases`: 18:00:00 of day zero is past
the 18:00 pause time, so the cursor jumps to 08:00 of the next day. -/
theorem businessAdjust_pause_cases_witness :
    businessAdjust ⟨18, 0⟩ ⟨8, 0⟩ 64800000 = setTimeOfDay (64800000 + msPerDay) 8 0 :=
  (businessAdjust_pause_cases.1 ⟨18, 0⟩ ⟨8, 0⟩ 64800000).1 (by decide)

theorem conflictLoop_eq_find (newStart newEnd : Int) :
    ∀ existing : List ExistingCampaign,
      conflictLoop newStart newEnd existing =
        match existing.find? (overlapsExisting newStart newEnd) with
        | none =>
          { hasConflict := false, conflictingCampaignId := none,
            conflictingCampaignName := none, suggestedTime := none }
        | some c =>
          { hasConflict := true, conflictingCampaignId := some c.id,
            conflictingCampaignName := some c.name,
            suggestedTime :=
              some (existingEndEstimate c ((effectiveStart c).getD 0) + 65 * msPerMinute) }
  | [] => rfl
  | campaign :: rest => by
    cases hs : effectiveStart campaign with
    | none =>
      have hov : overlapsExisting newStart newEnd campaign = false := by
        simp [overlapsExisting, hs]
      have hstep : conflictLoop newStart newEnd (campaign :: rest) =
          conflictLoop newStart newEnd rest := by
        simp only [conflictLoop, hs]
      rw [List.find?_cons_of_neg _ (by simp [hov]), hstep]
      exact conflictLoop_eq_find newStart newEnd rest
    | some s =>
      by_cases hcond :
          newEnd > (mapDbConfigToScheduleConfig campaign.config s).startTime -
              60 * msPerMinute ∧
            newStart < existingEndEstimate campaign s + 60 * msPerMinute
      · have hov : overlapsExisting newStart newEnd campaign = true := by
          simp [overlapsExisting, hs, hcond]
        have hstep : conflictLoop newStart newEnd (campaign :: rest) =
            { hasConflict := true, conflictingCampaignId := some campaign.id,
              conflictingCampaignName := some campaign.name,
              suggestedTime :=
                some (existingEndEstimate campaign s + (60 + 5) * msPerMinute) } := by
          simp only [conflictLoop, hs]
          rw [if_pos hcond]
        have h65 : (60 + 5 : Int) * msPerMinute = 65 * msPerMinute := by norm_num
        rw [List.find?_cons_of_pos _ hov, hstep, h65]
        show _ = ConflictResult.mk true (some campaign.id) (some campaign.name)
            (some (existingEndEstimate campaign ((effectiveStart campaign).getD 0) +
              65 * msPerMinute))
        rw [hs]
        rfl
      · have hov : overlapsExisting newStart newEnd campaign = false := by
          simp only [overlapsExisting, hs, decide_eq_false_iff_not]
          exact hcond
        have hstep : conflictLoop newStart newEnd (campaign :: rest) =
            conflictLoop newStart newEnd rest := by
          simp only [conflictLoop, hs]
          rw [if_neg hcond]
        rw [List.find?_cons_of_neg _ (by simp [hov]), hstep]
        exact conflictLoop_eq_find newStart newEnd rest

set_option maxRecDepth 10000 in
/-- C3: `checkScheduleConflict` reports the first existing campaign (in list
order) whose buffered window strictly overlaps the candidate window
(`candidate.end > existing.start − 60 min` and
`candidate.start < existing.end + 60 min`, ends estimated by the pacing
calculator), returning its id and name and `suggestedTime = existing.end +
65 min`, and reports no conflict exactly when no existing campaign overlaps;
concretely, an existing campaign occupying 10:00-11:00 of day zero conflicts
with a 20-minute candidate at 10:30 and yields `suggestedTime` 12:05
(43500000 ms). -/
theorem checkScheduleConflict_firstConflict :
    (∀ (newConfig : ScheduleConfig) (totalMessages : Nat)
        (existing : List ExistingCampaign),
      checkScheduleConflict newConfig totalMessages existing =
        match existing.find?
            (overlapsExisting newConfig.startTime
              (estimateCampaignEndTime newConfig totalMessages)) with
        | none =>
          { hasConflict := false, conflictingCampaignId := none,
            conflictingCampaignName := none, suggestedTime := none }
        | some c =>
          { hasConflict := true, conflictingCampaignId := some c.id,
            conflictingCampaignName := some c.name,
            suggestedTime :=
              some (existingEndEstimate c ((effectiveStart c).getD 0) + 65 * msPerMinute) }) ∧
    (∀ (newConfig : ScheduleConfig) (totalMessages : Nat)
        (existing : List ExistingCampaign),
      (checkScheduleConflict newConfig totalMessages existing).hasConflict =
        existing.any
          (overlapsExisting newConfig.startTime
            (estimateCampaignEndTime newConfig totalMessages))) ∧
    checkScheduleConflict conflictCandidateCfg 21 [conflictExistingCampaign] =
      { hasConflict := true, conflictingCampaignId := some "camp-1",
        conflictingCampaignName := some "Existing", suggestedTime := some 43500000 } := by
  refine ⟨fun newConfig totalMessages existing =>
    conflictLoop_eq_find _ _ existing, fun newConfig totalMessages existing => ?_, by decide⟩
  rw [show checkScheduleConflict newConfig totalMessages existing =
      conflictLoop newConfig.startTime (estimateCampaignEndTime newConfig totalMessages)
        existing from rfl]
  rw [conflictLoop_eq_find]
  cases hf : existing.find?
      (overlapsExisting newConfig.startTime
        (estimateCampaignEndTime newConfig totalMessages)) with
  | none =>
    have hnone : ∀ x ∈ existing,
        ¬ overlapsExisting newConfig.startTime
            (estimateCampaignEndTime newConfig totalMessages) x = true := by
      rw [← List.find?_eq_none]
      exact hf
    cases hany : existing.any
        (overlapsExisting newConfig.startTime
          (estimateCampaignEndTime newConfig totalMessages)) with
    | false => rfl
    | true =>
      obtain ⟨x, hx, hpx⟩ := List.any_eq_true.mp hany
      exact absurd hpx (hnone x hx)
  | some c =>
    have hc : overlapsExisting newConfig.startTime
        (estimateCampaignEndTime newConfig totalMessages) c = true :=
      List.find?_some hf
    have hmem : c ∈ existing := List.mem_of_find?_eq_some hf
    have : existing.any
        (overlapsExisting newConfig.startTime
          (estimateCampaignEndTime newConfig totalMessages)) = true :=
      List.any_eq_true.mpr ⟨c, hmem, hc⟩
    rw [this]

/-- C2: when the dispatcher observes zero messages in waiting/pending and
zero in sending, it finalizes the campaign: status becomes `finished`,
`finished_at` is the current instant, `execution_time` is `now − startedAt`
in whole seconds, and `sent_messages` is overwritten with the exact count of
`sent` rows of that campaign — hence a campaign finished this way satisfies
`sentMessages = |sent messages|` at that quiescent point. -/
theorem completionCheck_finalizes (campaign : CampaignRow) (msgs : List MessageRow)
    (now s : Int) (hstart : campaign.started_at = some s) (hle : s ≤ now)
    (hpend :
      countMessages msgs campaign.id [MessageStatus.waiting, MessageStatus.pending] = 0)
    (hsend : countMessages msgs campaign.id [MessageStatus.sending] = 0) :
    completionCheck campaign msgs now = some (finalizeCampaign campaign msgs now) ∧
    (finalizeCampaign campaign msgs now).status = CampaignStatus.finished ∧
    (finalizeCampaign campaign msgs now).finished_at = some now ∧
    (finalizeCampaign campaign msgs now).execution_time = (now - s).ediv 1000 ∧
    (finalizeCampaign campaign msgs now).sent_messages =
      (countMessages msgs campaign.id [MessageStatus.sent] : Int) := by
  refine ⟨?_, rfl, rfl, ?_, rfl⟩
  · simp [completionCheck, hpend, hsend]
  · show max 0 ((now - campaign.started_at.getD campaign.created_at).ediv 1000) = _
    rw [hstart, Option.getD_some]
    exact max_eq_right (Int.ediv_nonneg (by omega) (by norm_num))

/-- Witness for `completionCheck_finalizes` on a concrete campaign with two
sent and one failed message, finalized at instant 5000. -/
theorem completionCheck_finalizes_witness :
    completionCheck finalizeDemoCampaign finalizeDemoMessages 5000 =
      some (finalizeCampaign finalizeDemoCampaign finalizeDemoMessages 5000) ∧
    (finalizeCampaign finalizeDemoCampaign finalizeDemoMessages 5000).status =
      CampaignStatus.finished ∧
    (finalizeCampaign finalizeDemoCampaign finalizeDemoMessages 5000).finished_at =
      some 5000 ∧
    (finalizeCampaign finalizeDemoCampaign finalizeDemoMessages 5000).execution_time =
      ((5000 : Int) - 0).ediv 1000 ∧
    (finalizeCampaign finalizeDemoCampaign finalizeDemoMessages 5000).sent_messages =
      (countMessages finalizeDemoMessages finalizeDemoCampaign.id [MessageStatus.sent] : Int) :=
  completionCheck_finalizes finalizeDemoCampaign finalizeDemoMessages 5000 0 rfl
    (by norm_num) (by decide) (by decide)

/-- C9 (amended): when the interval fields and the business-hours strategy
are absent from the blob, the dispatcher's `parseConfig` falls back to
`minInterval = 30`, `maxInterval = 40`, strategy `ignore`, while the
client-side adapter feeding the schedule preview falls back to
`minInterval = 30`, `maxInterval = 60` (not 40), strategy `ignore`;
unrecognized fields of the blob are never read by either. -/
theorem config_defaults (sc : ServerDbConfig) (db : DbConfig) (t : Int)
    (h1 : sc.minInterval = none) (h2 : sc.min_interval = none)
    (h3 : sc.maxInterval = none) (h4 : sc.max_interval = none)
    (h5 : sc.businessHoursStrategy = none)
    (h6 : sc.business_hours.bind (fun b => b.strategy) = none)
    (h7 : db.min_interval = none) (h8 : db.max_interval = none)
    (h9 : db.business_hours.bind (fun b => b.strategy) = none) :
    (parseConfig sc).minInterval = 30 ∧ (parseConfig sc).maxInterval = 40 ∧
    (parseConfig sc).businessHoursStrategy = BizStrategy.ignore ∧
    (mapDbConfigToScheduleConfig db t).minInterval = 30 ∧
    (mapDbConfigToScheduleConfig db t).maxInterval = 60 ∧
    (mapDbConfigToScheduleConfig db t).businessHoursStrategy = BizStrategy.ignore := by
  refine ⟨?_, ?_, ?_, ?_, ?_, ?_⟩ <;>
    simp [parseConfig, mapDbConfigToScheduleConfig, getSafeNumber, Option.orElse,
      h1, h2, h3, h4, h5, h6, h7, h8, h9]

/-- Witness for `config_defaults` on the empty blobs. -/
theorem config_defaults_witness :
    (parseConfig emptyServerDbConfig).minInterval = 30 ∧
    (parseConfig emptyServerDbConfig).maxInterval = 40 ∧
    (parseConfig emptyServerDbConfig).businessHoursStrategy = BizStrategy.ignore ∧
    (mapDbConfigToScheduleConfig emptyDbConfig 0).minInterval = 30 ∧
    (mapDbConfigToScheduleConfig emptyDbConfig 0).maxInterval = 60 ∧
    (mapDbConfigToScheduleConfig emptyDbConfig 0).businessHoursStrategy =
      BizStrategy.ignore :=
  config_defaults emptyServerDbConfig emptyDbConfig 0 rfl rfl rfl rfl rfl rfl rfl rfl rfl

/-- C9 counterexample: on the empty blob the client-side adapter defaults
`maxInterval` to 60, not the claimed 40. -/
theorem mapDbConfig_maxInterval_counterexample :
    (mapDbConfigToScheduleConfig emptyDbConfig 0).maxInterval = 60 ∧
    (mapDbConfigToScheduleConfig emptyDbConfig 0).maxInterval ≠ 40 := by
  decide

/-- C7 (amended): when the automatic one-shot gate did not fire, the
dispatcher skips a campaign exactly when its strategy is `pause` and the
current BRT hour of day is outside `[resumeHour, pauseHour)`, where the
bounds are the hour components alone of `resumeAt` / `pauseAt` (defaults 8
and 18); the minute components are ignored. -/
theorem businessGate_hour_spec (config : CampaignConfig) (utcHours : Int) :
    shouldPauseGate false config (brtHoursOf utcHours) = true ↔
      (config.businessHoursStrategy = BizStrategy.pause ∧
        ¬ (hourField config.businessHoursResumeTime 8 ≤ brtHoursOf utcHours ∧
            brtHoursOf utcHours < hourField config.businessHoursPauseTime 18)) := by
  by_cases h : config.businessHoursStrategy = BizStrategy.pause
  · simp [shouldPauseGate, businessHoursSkip, h]
    omega
  · simp [shouldPauseGate, businessHoursSkip, h]

/-- C7 counterexample: at 11:15 UTC (08:15 in UTC-3) with resume 08:30 and
pause 18:00, the BRT minute of day 495 lies outside the minute-level window
[510, 1080), so the claimed minute-of-day rule demands a skip; but the gate
compares hours only (8 ≥ 8) and does not skip. -/
theorem businessGate_minute_counterexample :
    ¬ (shouldPauseGate false halfHourResumeCfg (brtHoursOf 11) = true ↔
        minuteWindowContains ⟨8, 30⟩ ⟨18, 0⟩ ((11 - 3) * 60 + 15) = false) := by
  decide

/-- C8 (amended): the send invocation has no wall-clock timeout — the await
lasts the endpoint's full duration — and the failure commit records the
surfaced error message (the response's `error` string or "Failed to send";
the rejection's message or "Unknown error"), never a synthesized
"timeout"; a successful response is committed `sent` with `sent_at`
refreshed and `error_message` cleared. -/
theorem commitSend_spec :
    (∀ d : Nat, sendElapsedMs d = d) ∧
    (∀ (m : MessageRow) (now : Int) (e : Option String),
      commitSend m now (SendResult.response true true e) =
        { m with
            status := MessageStatus.sent
            sent_at := some now
            error_message := none }) ∧
    (∀ (m : MessageRow) (now : Int) (b : Bool) (e : Option String),
      commitSend m now (SendResult.response false b e) =
        { m with
            status := MessageStatus.failed
            error_message := some (e.getD "Failed to send") }) ∧
    (∀ (m : MessageRow) (now : Int) (e : Option String),
      commitSend m now (SendResult.response true false e) =
        { m with
            status := MessageStatus.failed
            error_message := some (e.getD "Failed to send") }) ∧
    (∀ (m : MessageRow) (now : Int) (e : Option String),
      commitSend m now (SendResult.reject e) =
        { m with
            status := MessageStatus.failed
            error_message := some (e.getD "Unknown error") }) :=
  ⟨fun _ => rfl, fun _ _ _ => rfl, fun _ _ _ _ => rfl, fun _ _ _ => rfl, fun _ _ _ => rfl⟩

/-- C8 counterexample: a send taking 40 s is awaited in full — it is not
bounded by 30 s — and a runtime rejection whose surfaced message is
"connection timed out" is committed with that very message, not with
"timeout"; a successful response arriving after 40 s is even committed
`sent`. -/
theorem sendTimeout_counterexample :
    ¬ sendElapsedMs 40000 ≤ 30000 ∧
    commitSend claimedDemoMessage 1000 (SendResult.reject (some "connection timed out")) ≠
      { claimedDemoMessage with
          status := MessageStatus.failed
          error_message := some "timeout" } ∧
    (commitSend claimedDemoMessage 1000 (SendResult.response true true none)).status =
      MessageStatus.sent := by
  refine ⟨by norm_num [sendElapsedMs], ?_, rfl⟩
  decide

/-- C6 counterexample: retrying a message whose status is `sent` (not
`failed`) is not a no-op — the row is reset to waiting with its
`error_message` and `sent_at` cleared. -/
theorem retryMessage_sent_not_noop :
    retryMessage [sentDemoMessage] "m1" ≠ [sentDemoMessage] ∧
    (retryMessage [sentDemoMessage] "m1").map (fun m => m.status) =
      [MessageStatus.waiting] := by
  decide

/-- C6 (amended): `retryMessage` unconditionally resets the row with the
given id — whatever its current status — to waiting ('aguardando') with
`error_message` and `sent_at` cleared, and leaves every other row unchanged;
the restriction to failed messages exists only in the page calling it, which
offers retry only on failed rows. -/
theorem retryMessage_spec (msgs : List MessageRow) (messageId : String) :
    (retryMessage msgs messageId).length = msgs.length ∧
    (∀ (i : Nat) (m m' : MessageRow), msgs.get? i = some m →
      (retryMessage msgs messageId).get? i = some m' →
      (m.id = messageId →
        m'.status = MessageStatus.waiting ∧ m'.error_message = none ∧ m'.sent_at = none ∧
          m'.id = m.id ∧ m'.campaign_id = m.campaign_id) ∧
      (m.id ≠ messageId → m' = m)) := by
  constructor
  · simp [retryMessage]
  · intro i m m' hm hm'
    rw [retryMessage, List.get?_map, hm, Option.map_some'] at hm'
    have hm'' : m' = if m.id = messageId then retryMessageRow m else m :=
      (Option.some_inj.mp hm').symm
    constructor
    · intro hid
      rw [hm'', if_pos hid]
      exact ⟨rfl, rfl, rfl, rfl, rfl⟩
    · intro hid
      rw [hm'', if_neg hid]

/-- Witness for `retryMessage_spec`: retrying the sent demo message resets
its fields. -/
theorem retryMessage_spec_witness :
    (retryMessageRow sentDemoMessage).status = MessageStatus.waiting ∧
    (retryMessageRow sentDemoMessage).error_message = none ∧
    (retryMessageRow sentDemoMessage).sent_at = none ∧
    (retryMessageRow sentDemoMessage).id = sentDemoMessage.id ∧
    (retryMessageRow sentDemoMessage).campaign_id = sentDemoMessage.campaign_id :=
  ((retryMessage_spec [sentDemoMessage] "m1").2 0 sentDemoMessage
    (retryMessageRow sentDemoMessage) rfl (by decide)).1 rfl

theorem sendLoop_stop_at_command (env : IterEnv) (envs2 : List IterEnv)
    (hbad : env.statusRead = CampaignStatus.paused ∨
      env.statusRead = CampaignStatus.canceled) :
    ∀ (envs1 : List IterEnv) (queue : List String),
      (∀ e ∈ envs1,
        e.statusRead ≠ CampaignStatus.paused ∧ e.statusRead ≠ CampaignStatus.canceled) →
      sendLoop (envs1 ++ env :: envs2) queue = sendLoop envs1 queue := by
  intro envs1
  induction envs1 with
  | nil =>
    intro queue _
    rcases hbad with h | h <;> simp [sendLoop, h]
  | cons e rest ih =>
    intro queue hgood
    have he := hgood e (List.mem_cons_self e rest)
    have hb : ¬ (e.statusRead = CampaignStatus.paused ∨
        e.statusRead = CampaignStatus.canceled) := by
      rintro (h | h)
      · exact he.1 h
      · exact he.2 h
    show sendLoop (e :: (rest ++ env :: envs2)) queue = sendLoop (e :: rest) queue
    simp only [sendLoop]
    rw [if_neg hb, if_neg hb]
    by_cases hbud : e.budgetBreak
    · rw [if_pos hbud, if_pos hbud]
    · rw [if_neg hbud, if_neg hbud]
      cases queue with
      | nil => rfl
      | cons id q =>
        have htail := ih q (fun x hx => hgood x (List.mem_cons_of_mem e hx))
        show LoopEvent.claimMsg id :: commitEvent id e.result ::
            sendLoop (rest ++ env :: envs2) q = _
        rw [htail]

theorem countClaims_sendLoop_le :
    ∀ (envs : List IterEnv) (queue : List String),
      countClaims (sendLoop envs queue) ≤ envs.length := by
  intro envs
  induction envs with
  | nil => intro queue; simp [sendLoop, countClaims]
  | cons e rest ih =>
    intro queue
    simp only [sendLoop]
    by_cases hb : e.statusRead = CampaignStatus.paused ∨
        e.statusRead = CampaignStatus.canceled
    · rw [if_pos hb]
      simp [countClaims]
    · rw [if_neg hb]
      by_cases hbud : e.budgetBreak
      · rw [if_pos hbud]
        simp [countClaims]
      · rw [if_neg hbud]
        cases queue with
        | nil => simp [countClaims]
        | cons id q =>
          have hcommit :
              (match commitEvent id e.result with
                | LoopEvent.claimMsg _ => true
                | _ => false) = false := by
            unfold commitEvent
            cases sendErrorMessage e.result <;> rfl
          have hrec := ih q
          show countClaims (LoopEvent.claimMsg id :: commitEvent id e.result ::
              sendLoop rest q) ≤ rest.length + 1
          simp [countClaims, List.filter_cons, hcommit] at hrec ⊢
          omega

theorem sendLoop_claim_then_commit :
    ∀ (envs : List IterEnv) (queue : List String) (i : Nat) (id : String),
      (sendLoop envs queue).get? i = some (LoopEvent.claimMsg id) →
      (sendLoop envs queue).get? (i + 1) = some (LoopEvent.commitSent id) ∨
      (sendLoop envs queue).get? (i + 1) = some (LoopEvent.commitFailed id) := by
  intro envs
  induction envs with
  | nil =>
    intro queue i id h
    simp [sendLoop] at h
  | cons e rest ih =>
    intro queue i id h
    by_cases hb : e.statusRead = CampaignStatus.paused ∨
        e.statusRead = CampaignStatus.canceled
    · rw [show sendLoop (e :: rest) queue = [] by simp [sendLoop, hb]] at h
      simp at h
    · by_cases hbud : e.budgetBreak
      · rw [show sendLoop (e :: rest) queue = [] by simp [sendLoop, hb, hbud]] at h
        simp at h
      · cases queue with
        | nil =>
          rw [show sendLoop (e :: rest) [] = [] by simp [sendLoop, hb, hbud]] at h
          simp at h
        | cons id0 q =>
          have hunfold : sendLoop (e :: rest) (id0 :: q) =
              LoopEvent.claimMsg id0 :: commitEvent id0 e.result :: sendLoop rest q := by
            simp [sendLoop, hb, hbud]
          rw [hunfold] at h
          rw [hunfold]
          cases i with
          | zero =>
            have h0 : some (LoopEvent.claimMsg id0) = some (LoopEvent.claimMsg id) := h
            have hid : id0 = id := by
              injection h0 with h1
              injection h1
            subst hid
            show (commitEvent id0 e.result :: sendLoop rest q).get? 0 = _ ∨
              (commitEvent id0 e.result :: sendLoop rest q).get? 0 = _
            unfold commitEvent
            cases sendErrorMessage e.result with
            | none => exact Or.inl rfl
            | some _ => exact Or.inr rfl
          | succ j =>
            cases j with
            | zero =>
              exfalso
              have h1 : some (commitEvent id0 e.result) = some (LoopEvent.claimMsg id) := h
              unfold commitEvent at h1
              cases hse : sendErrorMessage e.result <;> rw [hse] at h1 <;> simp at h1
            | succ k =>
              have hk : (sendLoop rest q).get? k = some (LoopEvent.claimMsg id) := h
              exact ih q k id hk

/-- C5: the send loop re-reads the campaign status at the top of every
iteration, before any claim; once a read returns `paused` or `canceled` the
loop breaks, so the whole trace equals that of the iterations before the
command was observed — no further claim or send happens for the campaign in
this invocation; at most one message is claimed per pre-command status read;
and every claimed message's send is committed (as sent or as failed)
immediately after its claim, so a send in flight when the command arrives is
still committed. -/
theorem sendLoop_pause_responsive (envs1 envs2 : List IterEnv) (env : IterEnv)
    (queue : List String)
    (hgood : ∀ e ∈ envs1,
      e.statusRead ≠ CampaignStatus.paused ∧ e.statusRead ≠ CampaignStatus.canceled)
    (hbad : env.statusRead = CampaignStatus.paused ∨
      env.statusRead = CampaignStatus.canceled) :
    sendLoop (envs1 ++ env :: envs2) queue = sendLoop envs1 queue ∧
    countClaims (sendLoop (envs1 ++ env :: envs2) queue) ≤ envs1.length ∧
    (∀ (i : Nat) (id : String),
      (sendLoop (envs1 ++ env :: envs2) queue).get? i = some (LoopEvent.claimMsg id) →
      (sendLoop (envs1 ++ env :: envs2) queue).get? (i + 1) =
          some (LoopEvent.commitSent id) ∨
      (sendLoop (envs1 ++ env :: envs2) queue).get? (i + 1) =
          some (LoopEvent.commitFailed id)) := by
  have hstop := sendLoop_stop_at_command env envs2 hbad envs1 queue hgood
  refine ⟨hstop, ?_, fun i id h => sendLoop_claim_then_commit _ queue i id h⟩
  rw [hstop]
  exact countClaims_sendLoop_le envs1 queue

/-- Witness for `sendLoop_pause_responsive`: one proceeding iteration, then
a read observing `paused` — the trace stops there and claims at most one
message. -/
theorem sendLoop_pause_responsive_witness :
    sendLoop [proceedingIterEnv, pausedIterEnv] ["m1", "m2"] =
      sendLoop [proceedingIterEnv] ["m1", "m2"] ∧
    countClaims (sendLoop [proceedingIterEnv, pausedIterEnv] ["m1", "m2"]) ≤ 1 :=
  have h := sendLoop_pause_responsive [proceedingIterEnv] [] pausedIterEnv ["m1", "m2"]
    (by decide) (by decide)
  ⟨h.1, h.2.1⟩
